import Mathlib

/-!
Shallow embedding of `src/tools.py` of mensleaguescheduleoptimizer.

The schedule is a pandas DataFrame whose rows are keyed by player name and
whose columns are keyed by date labels; every cell holds one of the string
markers `'NaN'` (unset), `'S'` (scheduled), `'X'` (excluded).  We embed it
as a `Grid`: the row index, the column index, and a total cell function.
Python exceptions (`KeyError`, `ZeroDivisionError`, `ValueError`) are
embedded as an `Except Err` result.  The pseudo-random `random.shuffle` of
the `(player, date)` work list is embedded by passing the shuffled order in
explicitly; a run of the Python code corresponds to an `order` that is a
permutation of the unset pairs.  Python float arithmetic on the scores is
embedded exactly over `ℚ` (the decimal literals 0.4 / 0.3 are the rationals
2/5 and 3/10); the only non-rational operation, the square root inside
`pandas.Series.std`, is abstracted as a function parameter `sq : ℚ → ℚ`
applied to the exactly-computed variance.
-/

namespace Golf

/-- Tri-state marker held by each cell of the schedule DataFrame:
`'NaN'`, `'S'`, `'X'`. -/
inductive Cell where
  | Unset : Cell
  | S : Cell
  | X : Cell
deriving DecidableEq

/-- Python exceptions that the embedded code can raise. -/
inductive Err where
  | keyError : Err
  | zeroDivisionError : Err
  | valueError : Err
deriving DecidableEq

/-- The schedule DataFrame: row index (player names), column index (date
labels), and the cell contents. -/
structure Grid where
  rows : List String
  cols : List String
  cell : String → String → Cell

/-- `schedule.loc[player, date] = v`: functional update of one cell. -/
def setCell (g : Grid) (p d : String) (v : Cell) : Grid :=
  { g with cell := fun q e => if q = p ∧ e = d then v else g.cell q e }

/-- `schedule[date].value_counts()['S']`: how many rows of the DataFrame hold
`'S'` in column `d`. -/
def colCountS (g : Grid) (d : String) : Nat :=
  g.rows.countP (fun p => decide (g.cell p d = Cell.S))

/-- `schedule.loc[player].value_counts()['S']`: how many columns of the
DataFrame hold `'S'` in row `p`.  (In pandas this lookup raises `KeyError`
when the count is zero; the raise is modelled at the call site.) -/
def rowCountS (g : Grid) (p : String) : Nat :=
  g.cols.countP (fun d => decide (g.cell p d = Cell.S))

/-- `'S' in schedule[date].values`. -/
def hasS (g : Grid) (d : String) : Bool :=
  g.rows.any (fun p => decide (g.cell p d = Cell.S))

/-- `schedule.loc[p, d]` with the pandas `KeyError` on an out-of-range key. -/
def loc (g : Grid) (p d : String) : Except Err Cell :=
  if p ∈ g.rows ∧ d ∈ g.cols then Except.ok (g.cell p d) else Except.error Err.keyError

/-- The bulk-exclusion branch of `generate_initial_schedule`:
`for player in players: if schedule.loc[player, date] == 'NaN':
schedule.loc[player, date] = 'X'`. -/
def bulkExclude (players : List String) (d : String) (g : Grid) : Grid :=
  players.foldl (fun h q => if h.cell q d = Cell.Unset then setCell h q d Cell.X else h) g

/-- One iteration of the `for player, date in player_dates` loop of
`generate_initial_schedule` (tools.py lines 29-41), evaluated against the
current partially-mutated grid.  The branch that reads
`schedule.loc[player].value_counts()['S']` raises `KeyError` when the row
holds no `'S'` at all, because the pandas `value_counts()` Series then has
no `'S'` key; that read is reached only when the cell is still `'NaN'`
(Python `and` short-circuits). -/
def applyPair (players : List String) (g : Grid) (p d : String) : Except Err Grid :=
  if hasS g d then
    if colCountS g d < 4 then
      if g.cell p d = Cell.Unset then
        if rowCountS g p = 0 then Except.error Err.keyError
        else if rowCountS g p ≤ 9 then Except.ok (setCell g p d Cell.S)
        else Except.ok (setCell g p d Cell.X)
      else Except.ok g
    else Except.ok (bulkExclude players d g)
  else Except.ok (setCell g p d Cell.S)

/-- The whole `for player, date in player_dates` loop. -/
def runPairs (players : List String) : Grid → List (String × String) → Except Err Grid
  | g, [] => Except.ok g
  | g, (p, d) :: rest =>
    match applyPair players g p d with
    | Except.error e => Except.error e
    | Except.ok g1 => runPairs players g1 rest

/-- The `player_dates` work list before shuffling: every `(player, date)`
pair whose cell is `'NaN'`, players outermost (tools.py lines 22-26). -/
def unsetPairs (players dates : List String) (g : Grid) : List (String × String) :=
  (players.map (fun p =>
    ((dates.filter (fun d => decide (g.cell p d = Cell.Unset))).map (fun d => (p, d))))).flatten

/-- `generate_initial_schedule(players, dates, original_schedule_df)` with
the result of `random.shuffle(player_dates)` passed in as `order`; a real
run corresponds to an `order` that is a permutation of
`unsetPairs players dates g`.  The function copies the original grid and
runs the fill loop on the copy. -/
def generate_initial_schedule (players dates : List String) (g : Grid)
    (order : List (String × String)) : Except Err Grid :=
  runPairs players g order

/-! ## Round-robin (pairwise-coverage) scorer, tools.py lines 48-83 -/

/-- All index pairs `i < j` of a list, as value pairs `(l[i], l[j])` — the
nested `for i / for j in range(i+1, ...)` iteration. -/
def pairsOf {α : Type} : List α → List (α × α)
  | [] => []
  | x :: xs => (xs.map (fun y => (x, y))) ++ pairsOf xs

/-- `[player for player in players if schedule.loc[player, date] == 'S']`. -/
def scheduled_players (g : Grid) (players : List String) (d : String) : List String :=
  players.filter (fun p => decide (g.cell p d = Cell.S))

/-- Every increment event of the `played_with_counts` table: one
`(player1, player2)` pair (with `player1` before `player2` in the scheduled
list) per date of `schedule.columns` per co-scheduled pair. -/
def pairIncrements (g : Grid) (players : List String) : List (String × String) :=
  (g.cols.map (fun d => pairsOf (scheduled_players g players d))).flatten

/-- The final value of `played_with_counts[p][q]`: each increment event
`(a, b)` bumps both `[a][b]` and `[b][a]`. -/
def played_with_count (g : Grid) (players : List String) (p q : String) : Nat :=
  (pairIncrements g players).countP
    (fun pr => decide ((pr.1 = p ∧ pr.2 = q) ∨ (pr.1 = q ∧ pr.2 = p)))

/-- The accumulated `round_robin_score` before normalization:
`for player in players: for other_player in players: if player != other_player:
round_robin_score += played_with_counts[player][other_player]`. -/
def round_robin_sum (g : Grid) (players : List String) : Nat :=
  (players.map (fun p =>
    (players.map (fun q =>
      if p ≠ q then played_with_count g players p q else 0)).sum)).sum

/-- `possible_pairs = len(players) * (len(players) - 1) / 2` (Python float
division, exact here). -/
def possible_pairs (players : List String) : ℚ :=
  (players.length : ℚ) * ((players.length : ℚ) - 1) / 2

/-- `calculate_round_robbin_score(schedule, players)`.  The final
`round_robin_score / possible_pairs` is Python float division and raises
`ZeroDivisionError` when `possible_pairs` is `0.0` (0 or 1 players). -/
def calculate_round_robbin_score (g : Grid) (players : List String) : Except Err ℚ :=
  if possible_pairs players = 0 then Except.error Err.zeroDivisionError
  else Except.ok ((round_robin_sum g players : ℚ) / possible_pairs players)

/-! ## Balance scorer, tools.py lines 86-113 -/

/-- Arithmetic mean, the one used inside `pandas.Series.std`. -/
def mean (xs : List ℚ) : ℚ := xs.sum / (xs.length : ℚ)

/-- The square of `pandas.Series(xs).std()`.  pandas uses the SAMPLE
standard deviation (`ddof=1`): the sum of squared deviations divided by
`n - 1`.  For `n < 2` pandas returns `NaN`, embedded as `none`. -/
def sample_var (xs : List ℚ) : Option ℚ :=
  if 2 ≤ xs.length then
    some ((xs.map (fun x => (x - mean xs) ^ 2)).sum / ((xs.length : ℚ) - 1))
  else none

/-- Python dict key order with an accumulator of already-seen keys. -/
def dictKeysAux : List String → List String → List String
  | _, [] => []
  | seen, x :: xs =>
    if x ∈ seen then dictKeysAux seen xs else x :: dictKeysAux (x :: seen) xs

/-- Python dict key order: first occurrence of each key, duplicates
collapsed — the keys of `{player: 0 for player in players}`. -/
def dictKeys (l : List String) : List String := dictKeysAux [] l

/-- The final `player_match_counts` dict of `calculate_balance_score`:
initialized to 0 for every (distinct) player, then the loop
`for player in players: for date in schedule.columns: if ... == 'S': += 1`
adds each occurrence of the name in the `players` list its row's `'S'`
count, so the value at key `p` is `count of p in players * rowCountS g p`;
`list(player_match_counts.values())` lists the values in key order. -/
def player_match_counts (g : Grid) (players : List String) : List ℚ :=
  (dictKeys players).map (fun p => ((players.count p * rowCountS g p : Nat) : ℚ))

/-- The `std_dev` local of `calculate_balance_score`, squared: the sample
standard deviation of the match counts when the dict is non-empty, else 0;
`none` is pandas `NaN` (exactly one distinct player). -/
def std_dev_sq (g : Grid) (players : List String) : Option ℚ :=
  if 0 < (player_match_counts g players).length then
    sample_var (player_match_counts g players)
  else some 0

/-- `calculate_balance_score(schedule, players)
= len(schedule.columns) - std_dev`.  The float square root inside
`Series.std` is abstracted as `sq` applied to the exact variance; `none`
propagates pandas `NaN`. -/
def calculate_balance_score (sq : ℚ → ℚ) (g : Grid) (players : List String) : Option ℚ :=
  (std_dev_sq g players).map (fun v => (g.cols.length : ℚ) - sq v)

/-! ## Seasonal (Aidan) scorer, tools.py lines 115-133 -/

/-- Month number of an abbreviated month name, as `%b` parses it. -/
def monthAbbrev (s : String) : Option Nat :=
  if s = "Jan" then some 1 else if s = "Feb" then some 2
  else if s = "Mar" then some 3 else if s = "Apr" then some 4
  else if s = "May" then some 5 else if s = "Jun" then some 6
  else if s = "Jul" then some 7 else if s = "Aug" then some 8
  else if s = "Sep" then some 9 else if s = "Oct" then some 10
  else if s = "Nov" then some 11 else if s = "Dec" then some 12
  else none

/-- Split a character list at every dash, like `String.splitOn "-"`. -/
def splitDashes : List Char → List (List Char)
  | [] => [[]]
  | c :: cs =>
    match splitDashes cs with
    | [] => [[]]
    | x :: xs => if c = '-' then [] :: x :: xs else (c :: x) :: xs

/-- Value of a non-empty all-digit numeral, like `String.toNat?`. -/
def digitsVal (cs : List Char) : Option Nat :=
  if !cs.isEmpty && cs.all Char.isDigit then
    some (cs.foldl (fun n c => n * 10 + (c.toNat - 48)) 0)
  else none

/-- `pd.to_datetime(label, format='%d-%b').month`: parse a day and an
abbreviated month.  Day validity is approximated as 1..31; the claims only
depend on the month of well-formed labels. -/
def dateMonth (s : String) : Option Nat :=
  match splitDashes s.toList with
  | [day, mon] =>
    match digitsVal day, monthAbbrev (String.mk mon) with
    | some d, some m => if 1 ≤ d ∧ d ≤ 31 then some m else none
    | _, _ => none
  | _ => none

/-- `pd.to_datetime(dates, format='%d-%b')` over the whole list: raises
(`ValueError`-like) if any label fails to parse. -/
def parseMonths : List String → Option (List Nat)
  | [] => some []
  | d :: rest =>
    match dateMonth d, parseMonths rest with
    | some m, some ms => some (m :: ms)
    | _, _ => none

/-- The `for date, dt_date in list(zip(dates, dt_dates))` loop of
`calculate_aidan_score`: Python `and` short-circuits, so
`schedule.loc['Aidan', date]` is read (and can raise `KeyError`) only when
the month is in `[4, 5, 6, 7]`. -/
def aidanLoop (g : Grid) : List (String × Nat) → Nat → Except Err Nat
  | [], acc => Except.ok acc
  | (d, m) :: rest, acc =>
    if m = 4 ∨ m = 5 ∨ m = 6 ∨ m = 7 then
      match loc g "Aidan" d with
      | Except.error e => Except.error e
      | Except.ok c => aidanLoop g rest (if c = Cell.S then acc + 1 else acc)
    else aidanLoop g rest acc

/-- `calculate_aidan_score(schedule, players, dates)` (the `players`
argument is unused in the source too). -/
def calculate_aidan_score (g : Grid) (players : List String) (dates : List String) :
    Except Err Nat :=
  match parseMonths dates with
  | none => Except.error Err.valueError
  | some ms => aidanLoop g (dates.zip ms) 0

/-! ## Total score, tools.py lines 135-154 -/

/-- `calculate_total_score(schedule, players, dates)
= 0.4 * balance + 0.3 * round_robin + 0.3 * aidan`, the decimal weights
taken exactly.  `calculate_round_robbin_score` is evaluated first and its
`ZeroDivisionError` propagates; the balance score cannot raise (its `NaN`
case, exactly one distinct player, is unreachable here because the
round-robin division already raised for 0 or 1 players — the `getD 0`
default is dead code kept only to make the value total). -/
def calculate_total_score (sq : ℚ → ℚ) (g : Grid) (players : List String)
    (dates : List String) : Except Err ℚ :=
  match calculate_round_robbin_score g players with
  | Except.error e => Except.error e
  | Except.ok r =>
    let b := (calculate_balance_score sq g players).getD 0
    match calculate_aidan_score g players dates with
    | Except.error e => Except.error e
    | Except.ok a => Except.ok (2/5 * b + 3/10 * r + 3/10 * (a : ℚ))

/-! ## Optimizer loop, tools.py lines 156-187

Each round generates a random candidate and scores it; the randomness is
embedded by passing the per-round `(candidate, total score)` pairs in
explicitly, one per iteration (`rounds.length = iterations`). -/

/-- One round of the loop: `if current_score > best_score:
best_score = current_score; best_schedule = current_schedule.copy()`. -/
def optimize_step (best : Option Grid × ℚ) (r : Grid × ℚ) : Option Grid × ℚ :=
  if r.2 > best.2 then (some r.1, r.2) else best

/-- `optimize_schedule`: starts from `best_schedule = None`,
`best_score = -1`, folds the rounds, returns `(best_schedule, best_score)`
(the source returns `best_schedule` and prints the score). -/
def optimize_schedule (rounds : List (Grid × ℚ)) : Option Grid × ℚ :=
  rounds.foldl optimize_step (none, -1)

/-! ## Player transposition (for the symmetry claim) -/

/-- Transposition of two player names. -/
def swapNames (a b p : String) : String :=
  if p = a then b else if p = b then a else p

/-- The input with players `a` and `b` swapped throughout: their rows in
the grid and their positions in the row index. -/
def swapGrid (a b : String) (g : Grid) : Grid :=
  { rows := g.rows.map (swapNames a b), cols := g.cols,
    cell := fun p d => g.cell (swapNames a b p) d }

/-- Modelled from the spec: "compute the population standard deviation of
these counts across players (0 if fewer than 1 player)" — its square, the
population variance with denominator `n` (the code under test divides by
`n - 1` instead). -/
def pop_var_spec (xs : List ℚ) : ℚ :=
  if 0 < xs.length then (xs.map (fun x => (x - mean xs) ^ 2)).sum / (xs.length : ℚ) else 0

/-! ## Concrete fixture grids for witnesses and counterexamples -/

/-- Two players, one May date, everything unset. -/
def gridU2 : Grid :=
  { rows := ["A", "B"], cols := ["01-May"], cell := fun _ _ => Cell.Unset }

/-- Two players, one August date, everything unset. -/
def gridU8 : Grid :=
  { rows := ["A", "B"], cols := ["01-Aug"], cell := fun _ _ => Cell.Unset }

/-- Five players, one date, every cell pre-filled `'S'`. -/
def gridS5 : Grid :=
  { rows := ["P1", "P2", "P3", "P4", "P5"], cols := ["01-May"],
    cell := fun _ _ => Cell.S }

/-- Two players, one date; player A pre-excluded, player B unset. -/
def gridAX : Grid :=
  { rows := ["A", "B"], cols := ["d1"],
    cell := fun p _ => if p = "A" then Cell.X else Cell.Unset }

/-- The candidate the generator produces from `gridAX` with its one unset
pair: B gets scheduled. -/
def gridAXout : Grid := setCell gridAX "B" "d1" Cell.S

/-- Two players over two dates; A scheduled on both, B on none. -/
def gridAS : Grid :=
  { rows := ["A", "B"], cols := ["d1", "d2"],
    cell := fun p _ => if p = "A" then Cell.S else Cell.Unset }

/-- One player, one date, the cell unset. -/
def gridU1 : Grid :=
  { rows := ["A"], cols := ["d1"], cell := fun _ _ => Cell.Unset }

/-! ## Theorems -/

/-- Claim C1: the spec says generation is total and never fails on a
well-formed grid with its player/date lists.  The code is not: on the
all-unset 2-player, 1-date grid, with the shuffled order that is exactly
the unset-pair list, the first pair schedules player A, and the second pair
reaches `schedule.loc['B'].value_counts()['S']` while B's row holds no
`'S'`, so pandas raises `KeyError: 'S'` — `generate_initial_schedule`
raises instead of returning a resolved grid.  (The spec's own policy —
"schedule this cell, unless the row's current Scheduled count already
exceeds 9" — would schedule it.) -/
theorem generate_raises_keyError_on_fresh_grid :
    generate_initial_schedule ["A", "B"] ["01-May"] gridU2
      [("A", "01-May"), ("B", "01-May")] = Except.error Err.keyError ∧
    unsetPairs ["A", "B"] ["01-May"] gridU2 = [("A", "01-May"), ("B", "01-May")] :=
  ⟨rfl, by decide⟩

/-- Helper: with 0 or 1 players, `possible_pairs` is the float `0.0`. -/
theorem possible_pairs_eq_zero {players : List String} (h : players.length ≤ 1) :
    possible_pairs players = 0 := by
  rcases Nat.le_one_iff_eq_zero_or_eq_one.mp h with h0 | h0 <;>
    simp [possible_pairs, h0]

/-- Claim C2 (corrected): with an empty players list — in general whenever
the number of possible unordered pairs is 0 — the division
`round_robin_score / possible_pairs` is NOT guarded: it raises
`ZeroDivisionError` instead of returning a degraded zero. -/
theorem round_robbin_score_zero_division (g : Grid) (players : List String)
    (h : players.length ≤ 1) :
    calculate_round_robbin_score g players = Except.error Err.zeroDivisionError := by
  simp [calculate_round_robbin_score, possible_pairs_eq_zero h]

/-- Claim C2, witness for the corrected statement at the empty players
list. -/
theorem round_robbin_score_zero_division_witness :
    ([] : List String).length ≤ 1 ∧
    calculate_round_robbin_score gridU2 [] = Except.error Err.zeroDivisionError :=
  ⟨by decide, round_robbin_score_zero_division gridU2 [] (by decide)⟩

/-- Claim C2, counterexample to the claim as stated: on the empty players
list the pairwise-coverage computation raises (`ZeroDivisionError`), it
does not return a guarded zero value. -/
theorem round_robbin_score_empty_players_raises :
    calculate_round_robbin_score gridU8 [] = Except.error Err.zeroDivisionError := by
  have : possible_pairs [] = 0 := by simp [possible_pairs]
  simp [calculate_round_robbin_score, this]

/-- Helper: a fold of `optimize_step` over rounds none of which beats the
running best score leaves the accumulator unchanged. -/
theorem optimize_foldl_const (b : Option Grid) (s : ℚ) :
    ∀ rounds : List (Grid × ℚ), (∀ r ∈ rounds, r.2 ≤ s) →
      rounds.foldl optimize_step (b, s) = (b, s)
  | [], _ => rfl
  | r :: rest, h => by
    have hr : ¬ s < r.2 := not_lt.mpr (h r (by simp))
    have hrest : ∀ x ∈ rest, x.2 ≤ s := fun x hx => h x (by simp [hx])
    simpa [optimize_step, hr, gt_iff_lt] using optimize_foldl_const b s rest hrest

/-- Claim C10: when `iterations = 0` — and in general whenever no round's
total score strictly exceeds the `-1` sentinel — `optimize_schedule`
returns `None` instead of a schedule grid. -/
theorem optimize_schedule_none_when_no_improvement (rounds : List (Grid × ℚ))
    (h : ∀ r ∈ rounds, r.2 ≤ -1) :
    (optimize_schedule rounds).1 = none := by
  simp [optimize_schedule, optimize_foldl_const (none : Option Grid) (-1) rounds h]

/-- Claim C10, witness: zero rounds, and also a single round whose score
does not beat the sentinel, both yield `None`. -/
theorem optimize_schedule_none_witness :
    (∀ r ∈ ([] : List (Grid × ℚ)), r.2 ≤ -1) ∧
    (optimize_schedule []).1 = none ∧
    (∀ r ∈ [(gridU2, (-2 : ℚ))], r.2 ≤ -1) ∧
    (optimize_schedule [(gridU2, (-2 : ℚ))]).1 = none :=
  ⟨by simp, optimize_schedule_none_when_no_improvement [] (by simp),
   by norm_num,
   optimize_schedule_none_when_no_improvement [(gridU2, (-2 : ℚ))] (by norm_num)⟩

/-- Claim C4, counterexample to the claim as stated: an input grid whose
column is pre-filled with five `'S'` cells passes through generation
untouched (its unset-pair list is empty), so the column holds 5 > 4
scheduled cells after generation. -/
theorem generate_keeps_overfull_column :
    generate_initial_schedule ["P1", "P2", "P3", "P4", "P5"] ["01-May"] gridS5
      (unsetPairs ["P1", "P2", "P3", "P4", "P5"] ["01-May"] gridS5) = Except.ok gridS5 ∧
    ¬ colCountS gridS5 "01-May" ≤ 4 :=
  ⟨rfl, by decide⟩

/-- Helper: Python dict comprehension keys over a duplicate-free list are
the list itself. -/
theorem dictKeysAux_eq_self : ∀ (l seen : List String), l.Nodup →
    (∀ x ∈ l, x ∉ seen) → dictKeysAux seen l = l
  | [], _, _, _ => rfl
  | x :: xs, seen, hnd, hdis => by
    have hx : x ∉ seen := hdis x (List.mem_cons_self x xs)
    have hnd1 := List.nodup_cons.mp hnd
    have htl : dictKeysAux (x :: seen) xs = xs :=
      dictKeysAux_eq_self xs (x :: seen) hnd1.2 (by
        intro y hy
        simp only [List.mem_cons, not_or]
        exact ⟨fun hyx => hnd1.1 (hyx ▸ hy), hdis y (List.mem_cons_of_mem x hy)⟩)
    simp [dictKeysAux, hx, htl]

/-- Helper: `dictKeys` is the identity on duplicate-free lists. -/
theorem dictKeys_eq_self (l : List String) (h : l.Nodup) : dictKeys l = l :=
  dictKeysAux_eq_self l [] h (by simp)

/-- Claim C5, counterexample to the claim as stated: `pandas.Series.std`
computes the SAMPLE standard deviation (`ddof = 1`), not the population
one.  On the grid where player A has 2 scheduled dates and player B has 0,
the code's variance is 2 while the population variance of the same counts
is 1; since the balance score is `len(cols) - sqrt(variance)` and the
square root is injective on nonnegatives, the code's balance score differs
from the claimed `len(dates) - population std`. -/
theorem balance_std_is_sample_not_population :
    std_dev_sq gridAS ["A", "B"] ≠
      some (pop_var_spec (player_match_counts gridAS ["A", "B"])) ∧
    std_dev_sq gridAS ["A", "B"] = some 2 ∧
    pop_var_spec (player_match_counts gridAS ["A", "B"]) = 1 := by
  have hA : rowCountS gridAS "A" = 2 := by decide
  have hB : rowCountS gridAS "B" = 0 := by decide
  have hk : dictKeys ["A", "B"] = ["A", "B"] := by decide
  have c1 : List.count "A" ["A", "B"] = 1 := by decide
  have c2 : List.count "B" ["A", "B"] = 1 := by decide
  have hc : player_match_counts gridAS ["A", "B"] = [2, 0] := by
    simp [player_match_counts, hk, hA, hB, c1, c2]
  have hv : std_dev_sq gridAS ["A", "B"] = some 2 := by
    rw [std_dev_sq, hc]
    norm_num [sample_var, mean]
  have hp : pop_var_spec (player_match_counts gridAS ["A", "B"]) = 1 := by
    rw [hc]
    norm_num [pop_var_spec, mean]
  refine ⟨?_, hv, hp⟩
  rw [hv, hp]
  norm_num

/-- Claim C5 (amended): the code's balance score is `len(cols)` minus the
SAMPLE standard deviation of the per-player Scheduled counts (`NaN` when
there are fewer than 2 distinct players, 0 when there are no players).  In
particular, when at least two duplicate-free players all have the same
Scheduled count, the variance is 0, and the balance score equals exactly
`len(cols) - 0`. -/
theorem balance_score_equal_counts (sq : ℚ → ℚ) (g : Grid) (players : List String)
    (k : Nat) (hsq : sq 0 = 0) (hnd : players.Nodup) (h2 : 2 ≤ players.length)
    (hk : ∀ p ∈ players, rowCountS g p = k) :
    calculate_balance_score sq g players = some ((g.cols.length : ℚ) - 0) := by
  have hkeys : dictKeys players = players := dictKeys_eq_self players hnd
  have hcounts : player_match_counts g players =
      List.replicate players.length (k : ℚ) := by
    unfold player_match_counts
    rw [hkeys, ← List.map_const']
    refine List.map_congr_left (fun p hp => ?_)
    rw [List.count_eq_one_of_mem hnd hp, hk p hp, one_mul]
  have hn0 : (players.length : ℚ) ≠ 0 := by
    have : 0 < players.length := by omega
    exact_mod_cast this.ne'
  have hmean : mean (List.replicate players.length (k : ℚ)) = k := by
    unfold mean
    rw [List.sum_replicate, List.length_replicate, nsmul_eq_mul,
      mul_div_cancel_left₀ _ hn0]
  have hvar : sample_var (List.replicate players.length (k : ℚ)) = some 0 := by
    unfold sample_var
    rw [List.length_replicate, if_pos h2, hmean]
    simp [List.map_replicate, List.sum_replicate]
  have hstd : std_dev_sq g players = some 0 := by
    rw [std_dev_sq, hcounts, List.length_replicate, if_pos (by omega : 0 < players.length),
      hvar]
  rw [calculate_balance_score, hstd]
  simp [hsq]

/-- Claim C5, witness for the corrected statement: two players with equal
(zero) Scheduled counts give balance score `len(cols) - 0`. -/
theorem balance_score_equal_counts_witness :
    (fun q : ℚ => q) 0 = 0 ∧ (["A", "B"] : List String).Nodup ∧
    2 ≤ (["A", "B"] : List String).length ∧
    (∀ p ∈ (["A", "B"] : List String), rowCountS gridU8 p = 0) ∧
    calculate_balance_score (fun q => q) gridU8 ["A", "B"] =
      some ((gridU8.cols.length : ℚ) - 0) :=
  ⟨rfl, by decide, by decide, by decide,
   balance_score_equal_counts (fun q => q) gridU8 ["A", "B"] 0 rfl
     (by decide) (by decide) (by decide)⟩

/-- Helper: the pairwise-coverage score of the all-unset 2-player August
grid is 0. -/
theorem rr_gridU8 : calculate_round_robbin_score gridU8 ["A", "B"] = Except.ok 0 := by
  have hs : round_robin_sum gridU8 ["A", "B"] = 0 := by decide
  have hp : possible_pairs ["A", "B"] = 1 := by norm_num [possible_pairs]
  rw [calculate_round_robbin_score, if_neg (by rw [hp]; norm_num), hs, hp]
  norm_num

/-- Helper: the balance score of the all-unset 2-player August grid is 1
(one date, zero deviation). -/
theorem balance_gridU8 :
    calculate_balance_score (fun q => q) gridU8 ["A", "B"] = some 1 := by
  have hc : player_match_counts gridU8 ["A", "B"] = [0, 0] := by
    have hk : dictKeys ["A", "B"] = ["A", "B"] := by decide
    have hA : rowCountS gridU8 "A" = 0 := by decide
    have hB : rowCountS gridU8 "B" = 0 := by decide
    have c1 : List.count "A" ["A", "B"] = 1 := by decide
    have c2 : List.count "B" ["A", "B"] = 1 := by decide
    simp [player_match_counts, hk, hA, hB, c1, c2]
  have hs : std_dev_sq gridU8 ["A", "B"] = some 0 := by
    rw [std_dev_sq, hc]
    norm_num [sample_var, mean]
  rw [calculate_balance_score, hs]
  norm_num [gridU8]

/-- Helper: the seasonal score of the August-only grid is 0 and is computed
without ever reading row `'Aidan'` (the month test short-circuits). -/
theorem aidan_gridU8 :
    calculate_aidan_score gridU8 ["A", "B"] ["01-Aug"] = Except.ok 0 := rfl

/-- Claim C7: whenever the three sub-scores are defined, the total score is
exactly `0.4 * balance + 0.3 * pairwise_coverage + 0.3 * seasonal` (the
weights taken exactly; the claim's 1e-9 float tolerance is subsumed by
exact rational arithmetic). -/
theorem total_score_weighted_sum (sq : ℚ → ℚ) (g : Grid) (players dates : List String)
    (r b : ℚ) (a : Nat)
    (hr : calculate_round_robbin_score g players = Except.ok r)
    (hb : calculate_balance_score sq g players = some b)
    (ha : calculate_aidan_score g players dates = Except.ok a) :
    calculate_total_score sq g players dates =
      Except.ok (2/5 * b + 3/10 * r + 3/10 * (a : ℚ)) := by
  rw [calculate_total_score, hr, hb, ha]
  rfl

/-- Claim C7, witness: on the all-unset 2-player August grid the sub-scores
are 1 / 0 / 0 and the total is `0.4 * 1 + 0.3 * 0 + 0.3 * 0`. -/
theorem total_score_weighted_sum_witness :
    calculate_round_robbin_score gridU8 ["A", "B"] = Except.ok 0 ∧
    calculate_balance_score (fun q => q) gridU8 ["A", "B"] = some 1 ∧
    calculate_aidan_score gridU8 ["A", "B"] ["01-Aug"] = Except.ok 0 ∧
    calculate_total_score (fun q => q) gridU8 ["A", "B"] ["01-Aug"] =
      Except.ok (2/5 * 1 + 3/10 * 0 + 3/10 * ((0 : Nat) : ℚ)) :=
  ⟨rr_gridU8, balance_gridU8, aidan_gridU8,
   total_score_weighted_sum (fun q => q) gridU8 ["A", "B"] ["01-Aug"] 0 1 0
     rr_gridU8 balance_gridU8 aidan_gridU8⟩

/-- Claim C6, counterexample to the claim as stated: `'Aidan'` is not a row
of `gridU8`, yet the seasonal score — and the whole total score — computes
fine, because the date's month (August) fails the `in [4, 5, 6, 7]` test
and Python's `and` short-circuits before the `schedule.loc['Aidan', date]`
lookup. -/
theorem total_score_ok_without_aidan :
    ("Aidan" ∈ gridU8.rows → False) ∧
    calculate_total_score (fun q => q) gridU8 ["A", "B"] ["01-Aug"] =
      Except.ok (2/5) := by
  refine ⟨by decide, ?_⟩
  rw [calculate_total_score, rr_gridU8, balance_gridU8, aidan_gridU8]
  norm_num

/-- Helper: with at least two players the possible-pairs denominator is
nonzero. -/
theorem possible_pairs_ne_zero {players : List String} (h : 2 ≤ players.length) :
    possible_pairs players ≠ 0 := by
  have h1 : (2 : ℚ) ≤ (players.length : ℚ) := by exact_mod_cast h
  have h2 : 0 < (players.length : ℚ) * ((players.length : ℚ) - 1) / 2 := by nlinarith
  rw [possible_pairs]
  exact h2.ne'

/-- Helper: when `'Aidan'` is not a row of the grid, the seasonal loop
raises `KeyError` as soon as it meets a date whose month lies in 4..7. -/
theorem aidanLoop_keyError (g : Grid) (hA : "Aidan" ∉ g.rows) :
    ∀ (l : List (String × Nat)) (acc : Nat),
      (∃ e ∈ l, e.2 = 4 ∨ e.2 = 5 ∨ e.2 = 6 ∨ e.2 = 7) →
      aidanLoop g l acc = Except.error Err.keyError
  | [], acc, h => absurd h (by simp)
  | (d, m) :: rest, acc, h => by
    by_cases hm : m = 4 ∨ m = 5 ∨ m = 6 ∨ m = 7
    · have hloc : loc g "Aidan" d = Except.error Err.keyError := by
        rw [loc, if_neg]
        intro hc
        exact hA hc.1
      simp only [aidanLoop, if_pos hm, hloc]
    · have hrest : ∃ e ∈ rest, e.2 = 4 ∨ e.2 = 5 ∨ e.2 = 6 ∨ e.2 = 7 := by
        obtain ⟨e, he, h47⟩ := h
        rcases List.mem_cons.mp he with rfl | hmem
        · exact absurd h47 hm
        · exact ⟨e, hmem, h47⟩
      simp only [aidanLoop, if_neg hm]
      exact aidanLoop_keyError g hA rest acc hrest

/-- Helper: a date of the input list that parses to month `m` appears as
the pair `(d, m)` in the zip that the seasonal loop walks. -/
theorem mem_zip_of_parseMonths : ∀ (dates : List String) (ms : List Nat),
    parseMonths dates = some ms →
    ∀ d m, d ∈ dates → dateMonth d = some m → (d, m) ∈ dates.zip ms
  | [], _, _, d, m, hd, _ => absurd hd (by simp)
  | d0 :: rest, ms, h, d, m, hd, hm => by
    rw [parseMonths] at h
    cases h0 : dateMonth d0 with
    | none => rw [h0] at h; exact absurd h (by simp)
    | some m0 =>
      cases h1 : parseMonths rest with
      | none => rw [h0, h1] at h; exact absurd h (by simp)
      | some ms0 =>
        rw [h0, h1] at h
        obtain rfl : m0 :: ms0 = ms := by
          simpa using h
        rcases List.mem_cons.mp hd with rfl | hmem
        · obtain rfl : m0 = m := by rw [h0] at hm; simpa using hm
          simp [List.zip_cons_cons]
        · exact List.mem_cons_of_mem _
            (mem_zip_of_parseMonths rest ms0 h1 d m hmem hm)

/-- Claim C6 (amended): if `'Aidan'` is not a row of the grid and at least
one (parseable) date falls in months 4..7, the seasonal score raises a
lookup error, and the total score raises it too as soon as the earlier
sub-scores are defined (at least two players).  When no date falls in
months 4..7 the lookup is short-circuited away and no error occurs (see the
counterexample). -/
theorem aidan_and_total_keyError_without_aidan (sq : ℚ → ℚ) (g : Grid)
    (players dates : List String) (ms : List Nat)
    (hA : "Aidan" ∉ g.rows)
    (hparse : parseMonths dates = some ms)
    (hmonth : ∃ d ∈ dates, ∃ m, dateMonth d = some m ∧
      (m = 4 ∨ m = 5 ∨ m = 6 ∨ m = 7))
    (hn : 2 ≤ players.length) :
    calculate_aidan_score g players dates = Except.error Err.keyError ∧
    calculate_total_score sq g players dates = Except.error Err.keyError := by
  obtain ⟨d, hd, m, hdm, hm47⟩ := hmonth
  have hzip : (d, m) ∈ dates.zip ms := mem_zip_of_parseMonths dates ms hparse d m hd hdm
  have haid : calculate_aidan_score g players dates = Except.error Err.keyError := by
    rw [calculate_aidan_score, hparse]
    exact aidanLoop_keyError g hA _ 0 ⟨(d, m), hzip, hm47⟩
  refine ⟨haid, ?_⟩
  rw [calculate_total_score, calculate_round_robbin_score,
    if_neg (possible_pairs_ne_zero hn), haid]

/-- Claim C6, witness for the corrected statement: on the all-unset May
grid without an Aidan row, both the seasonal and total score computations
raise the lookup error. -/
theorem aidan_keyError_witness :
    "Aidan" ∉ gridU2.rows ∧
    parseMonths ["01-May"] = some [5] ∧
    (∃ d ∈ (["01-May"] : List String), ∃ m, dateMonth d = some m ∧
      (m = 4 ∨ m = 5 ∨ m = 6 ∨ m = 7)) ∧
    2 ≤ (["A", "B"] : List String).length ∧
    (calculate_aidan_score gridU2 ["A", "B"] ["01-May"] = Except.error Err.keyError ∧
     calculate_total_score (fun q => q) gridU2 ["A", "B"] ["01-May"] =
       Except.error Err.keyError) :=
  ⟨by decide, by decide,
   ⟨"01-May", by decide, 5, by decide, Or.inr (Or.inl rfl)⟩, by decide,
   aidan_and_total_keyError_without_aidan (fun q => q) gridU2 ["A", "B"] ["01-May"] [5]
     (by decide) (by decide)
     ⟨"01-May", by decide, 5, by decide, Or.inr (Or.inl rfl)⟩ (by decide)⟩

/-- Helper: one fold step of the bulk-exclusion loop. -/
theorem bulkExclude_cons (x : String) (xs : List String) (d : String) (g : Grid) :
    bulkExclude (x :: xs) d g =
      bulkExclude xs d (if g.cell x d = Cell.Unset then setCell g x d Cell.X else g) := rfl

/-- Helper: the bulk-exclusion loop only writes cells that are currently
unset, so any non-unset cell keeps its value. -/
theorem bulkExclude_preserves :
    ∀ (players : List String) (d : String) (g : Grid) (q e : String),
      g.cell q e ≠ Cell.Unset → (bulkExclude players d g).cell q e = g.cell q e
  | [], _, _, _, _, _ => rfl
  | x :: xs, d, g, q, e, h => by
    rw [bulkExclude_cons]
    by_cases hx : g.cell x d = Cell.Unset
    · rw [if_pos hx]
      have hne : ¬(q = x ∧ e = d) := by
        rintro ⟨rfl, rfl⟩
        exact h hx
      have h1 : (setCell g x d Cell.X).cell q e = g.cell q e := by
        simp [setCell, hne]
      rw [bulkExclude_preserves xs d _ q e (by rw [h1]; exact h), h1]
    · rw [if_neg hx]
      exact bulkExclude_preserves xs d g q e h

/-- Helper: one loop iteration keeps every cell that was non-unset in the
ORIGINAL grid `g0` at its original value, provided the visited pair was
originally unset and the invariant held before the step. -/
theorem applyPair_preserves (players : List String) (g0 g g1 : Grid) (p d : String)
    (hpd : g0.cell p d = Cell.Unset)
    (hinv : ∀ q e, g0.cell q e ≠ Cell.Unset → g.cell q e = g0.cell q e)
    (h : applyPair players g p d = Except.ok g1) :
    ∀ q e, g0.cell q e ≠ Cell.Unset → g1.cell q e = g0.cell q e := by
  intro q e hqe
  have hne : ¬(q = p ∧ e = d) := by
    rintro ⟨rfl, rfl⟩
    exact hqe hpd
  have hgq : g.cell q e = g0.cell q e := hinv q e hqe
  have hsetS : (setCell g p d Cell.S).cell q e = g.cell q e := by simp [setCell, hne]
  have hsetX : (setCell g p d Cell.X).cell q e = g.cell q e := by simp [setCell, hne]
  have hbulk : (bulkExclude players d g).cell q e = g.cell q e :=
    bulkExclude_preserves players d g q e (by rw [hgq]; exact hqe)
  rw [applyPair] at h
  split_ifs at h
  all_goals first
    | exact Except.noConfusion h
    | (obtain rfl := Except.ok.inj h; rw [hsetS, hgq])
    | (obtain rfl := Except.ok.inj h; rw [hsetX, hgq])
    | (obtain rfl := Except.ok.inj h; rw [hbulk, hgq])
    | (obtain rfl := Except.ok.inj h; exact hgq)

/-- Helper: the whole fill loop keeps every originally non-unset cell,
provided every visited pair was originally unset. -/
theorem runPairs_preserves (players : List String) :
    ∀ (order : List (String × String)) (g0 g g1 : Grid),
      (∀ pr ∈ order, g0.cell pr.1 pr.2 = Cell.Unset) →
      (∀ q e, g0.cell q e ≠ Cell.Unset → g.cell q e = g0.cell q e) →
      runPairs players g order = Except.ok g1 →
      ∀ q e, g0.cell q e ≠ Cell.Unset → g1.cell q e = g0.cell q e
  | [], g0, g, g1, _, hinv, h => by
    obtain rfl := Except.ok.inj h
    exact hinv
  | (p, d) :: rest, g0, g, g1, horder, hinv, h => by
    rw [runPairs] at h
    cases hap : applyPair players g p d with
    | error e =>
      rw [hap] at h
      exact absurd h (by simp)
    | ok g2 =>
      rw [hap] at h
      exact runPairs_preserves players rest g0 g2 g1
        (fun pr hpr => horder pr (List.mem_cons_of_mem _ hpr))
        (applyPair_preserves players g0 g g2 p d (horder (p, d) (by simp)) hinv hap) h

/-- Helper: membership in the unset-pair work list means the cell was unset
in the original grid. -/
theorem cell_unset_of_mem_unsetPairs {players dates : List String} {g : Grid}
    {pr : String × String} (h : pr ∈ unsetPairs players dates g) :
    g.cell pr.1 pr.2 = Cell.Unset := by
  unfold unsetPairs at h
  simp only [List.mem_flatten, List.mem_map] at h
  obtain ⟨l, ⟨p, hp, rfl⟩, hpr⟩ := h
  obtain ⟨d, hd, rfl⟩ := List.mem_map.mp hpr
  simpa using List.of_mem_filter hd

/-- Claim C3: on every candidate that `generate_initial_schedule` returns
(for any shuffle of the unset-pair work list), each cell that was
`Scheduled` or `Excluded` in the original grid holds the identical value:
only unset cells are mutated. -/
theorem generate_preserves_prefilled (players dates : List String) (g : Grid)
    (order : List (String × String)) (g1 : Grid)
    (hperm : order.Perm (unsetPairs players dates g))
    (h : generate_initial_schedule players dates g order = Except.ok g1) :
    ∀ p d, g.cell p d ≠ Cell.Unset → g1.cell p d = g.cell p d := by
  have horder : ∀ pr ∈ order, g.cell pr.1 pr.2 = Cell.Unset := fun pr hpr =>
    cell_unset_of_mem_unsetPairs (hperm.mem_iff.mp hpr)
  exact runPairs_preserves players order g g g1 horder (fun _ _ _ => rfl) h

/-- Claim C3, witness: the pre-excluded cell of player A survives a
generation run that schedules player B. -/
theorem generate_preserves_prefilled_witness :
    [("B", "d1")].Perm (unsetPairs ["A", "B"] ["d1"] gridAX) ∧
    generate_initial_schedule ["A", "B"] ["d1"] gridAX [("B", "d1")] =
      Except.ok gridAXout ∧
    gridAX.cell "A" "d1" ≠ Cell.Unset ∧
    gridAXout.cell "A" "d1" = gridAX.cell "A" "d1" :=
  ⟨by decide, rfl, by decide,
   generate_preserves_prefilled ["A", "B"] ["d1"] gridAX [("B", "d1")] gridAXout
     (by decide) rfl "A" "d1" (by decide)⟩

/-- Helper: a write into another column leaves a column's Scheduled count
unchanged. -/
theorem colCountS_setCell_ne (g : Grid) (p d0 : String) (v : Cell) (d : String)
    (h : d ≠ d0) : colCountS (setCell g p d0 v) d = colCountS g d := by
  unfold colCountS
  refine List.countP_congr ?_
  intro q _
  have hc : ¬(q = p ∧ d = d0) := fun hc => h hc.2
  simp [setCell, hc]

/-- Helper: writing an `'X'` never increases a column's Scheduled count. -/
theorem colCountS_setCell_X_le (g : Grid) (p d0 d : String) :
    colCountS (setCell g p d0 Cell.X) d ≤ colCountS g d := by
  by_cases h : d = d0
  · subst h
    unfold colCountS
    refine List.countP_mono_left ?_
    intro q _ hq
    by_cases hqp : q = p
    · subst hqp
      simp [setCell] at hq
    · simpa [setCell, hqp] using hq
  · rw [colCountS_setCell_ne g p d0 Cell.X d h]

/-- Helper: a predicate count grows by at most the multiplicity of the one
value where two predicates may disagree. -/
theorem countP_le_countP_add_count (p0 : String) (f f1 : String → Bool)
    (hff : ∀ a, a ≠ p0 → f a = f1 a) :
    ∀ l : List String, l.countP f ≤ l.countP f1 + l.count p0
  | [] => le_refl 0
  | a :: tl => by
    have ih := countP_le_countP_add_count p0 f f1 hff tl
    by_cases ha : a = p0
    · subst ha
      rw [List.countP_cons, List.countP_cons, List.count_cons_self]
      have h1 : (if f a then 1 else 0) ≤ 1 := by split <;> omega
      omega
    · rw [List.countP_cons, List.countP_cons, List.count_cons_of_ne (Ne.symm ha)]
      rw [hff a ha]
      omega

/-- Helper: writing an `'S'` increases a column's Scheduled count by at
most the multiplicity of the written row in the row index. -/
theorem colCountS_setCell_S_le (g : Grid) (p d : String) :
    colCountS (setCell g p d Cell.S) d ≤ colCountS g d + g.rows.count p := by
  unfold colCountS
  refine countP_le_countP_add_count p _ _ ?_ g.rows
  intro a ha
  simp [setCell, ha]

/-- Helper: a column with no `'S'` at all has Scheduled count 0. -/
theorem colCountS_eq_zero_of_not_hasS (g : Grid) (d : String)
    (h : ¬ hasS g d = true) : colCountS g d = 0 := by
  unfold hasS at h
  unfold colCountS
  rw [List.countP_eq_zero]
  intro a ha
  simp only [List.any_eq_true, not_exists, not_and] at h
  simpa using h a ha

/-- Helper: the bulk-exclusion loop (all writes are `'X'`) never increases
any column's Scheduled count. -/
theorem colCountS_bulkExclude_le :
    ∀ (players : List String) (d0 : String) (g : Grid) (d : String),
      colCountS (bulkExclude players d0 g) d ≤ colCountS g d
  | [], _, _, _ => le_refl _
  | x :: xs, d0, g, d => by
    rw [bulkExclude_cons]
    refine le_trans (colCountS_bulkExclude_le xs d0 _ d) ?_
    by_cases hx : g.cell x d0 = Cell.Unset
    · rw [if_pos hx]
      exact colCountS_setCell_X_le g x d0 d
    · rw [if_neg hx]

/-- Helper: the bulk-exclusion loop keeps the row index. -/
theorem bulkExclude_rows : ∀ (players : List String) (d : String) (g : Grid),
    (bulkExclude players d g).rows = g.rows
  | [], _, _ => rfl
  | x :: xs, d, g => by
    rw [bulkExclude_cons, bulkExclude_rows xs d _]
    by_cases hx : g.cell x d = Cell.Unset
    · rw [if_pos hx]
      rfl
    · rw [if_neg hx]

/-- Helper: one loop iteration keeps the row index. -/
theorem applyPair_rows (players : List String) (g g1 : Grid) (p d : String)
    (h : applyPair players g p d = Except.ok g1) : g1.rows = g.rows := by
  rw [applyPair] at h
  split_ifs at h
  all_goals first
    | exact Except.noConfusion h
    | (obtain rfl := Except.ok.inj h; rfl)
    | (obtain rfl := Except.ok.inj h; exact bulkExclude_rows players _ g)

/-- Helper: one loop iteration keeps every column's Scheduled count at most
4 (for duplicate-free rows): an `'S'` is written only after checking the
column's count is below 4, or into a column with no `'S'` at all. -/
theorem applyPair_colCount_le (players : List String) (g g1 : Grid) (p d0 d : String)
    (hnd : g.rows.Nodup) (hle : colCountS g d ≤ 4)
    (h : applyPair players g p d0 = Except.ok g1) :
    colCountS g1 d ≤ 4 := by
  by_cases hd : d = d0
  · subst hd
    rw [applyPair] at h
    split_ifs at h with h1 h2 h3 h4 h5
    · obtain rfl := Except.ok.inj h
      have hcnt := List.nodup_iff_count_le_one.mp hnd p
      have hS := colCountS_setCell_S_le g p d
      omega
    · obtain rfl := Except.ok.inj h
      exact le_trans (colCountS_setCell_X_le g p d d) hle
    · obtain rfl := Except.ok.inj h
      exact hle
    · obtain rfl := Except.ok.inj h
      exact le_trans (colCountS_bulkExclude_le players d g d) hle
    · obtain rfl := Except.ok.inj h
      have h0 : colCountS g d = 0 := colCountS_eq_zero_of_not_hasS g d h1
      have hcnt := List.nodup_iff_count_le_one.mp hnd p
      have hS := colCountS_setCell_S_le g p d
      omega
  · rw [applyPair] at h
    split_ifs at h
    all_goals first
      | exact Except.noConfusion h
      | (obtain rfl := Except.ok.inj h;
         rw [colCountS_setCell_ne g p d0 _ d hd]; exact hle)
      | (obtain rfl := Except.ok.inj h; exact hle)
      | (obtain rfl := Except.ok.inj h;
         exact le_trans (colCountS_bulkExclude_le players d0 g d) hle)

/-- Helper: the whole fill loop keeps every column's Scheduled count at
most 4 when it starts that way. -/
theorem runPairs_colCount_le (players : List String) :
    ∀ (order : List (String × String)) (g g1 : Grid) (d : String),
      g.rows.Nodup → colCountS g d ≤ 4 →
      runPairs players g order = Except.ok g1 → colCountS g1 d ≤ 4
  | [], g, g1, d, _, hle, h => by
    obtain rfl := Except.ok.inj h
    exact hle
  | (p, d0) :: rest, g, g1, d, hnd, hle, h => by
    rw [runPairs] at h
    cases hap : applyPair players g p d0 with
    | error e =>
      rw [hap] at h
      exact Except.noConfusion h
    | ok g2 =>
      rw [hap] at h
      have hrows : g2.rows = g.rows := applyPair_rows players g g2 p d0 hap
      exact runPairs_colCount_le players rest g2 g1 d (hrows ▸ hnd)
        (applyPair_colCount_le players g g2 p d0 d hnd hle hap) h

/-- Claim C4 (amended): for every input grid with duplicate-free rows whose
column holds at most 4 Scheduled cells to begin with, the column still
holds at most 4 Scheduled cells after generation — the original claim
fails only on inputs already pre-filled beyond the limit (see the
counterexample). -/
theorem generate_colCount_le_four (players dates : List String) (g : Grid)
    (order : List (String × String)) (g1 : Grid) (d : String)
    (hnd : g.rows.Nodup) (hle : colCountS g d ≤ 4)
    (h : generate_initial_schedule players dates g order = Except.ok g1) :
    colCountS g1 d ≤ 4 :=
  runPairs_colCount_le players order g g1 d hnd hle h

/-- Claim C4, witness for the corrected statement: a fresh 1×1 grid gets
its one cell scheduled and the column count stays within the limit. -/
theorem generate_colCount_le_four_witness :
    gridU1.rows.Nodup ∧ colCountS gridU1 "d1" ≤ 4 ∧
    generate_initial_schedule ["A"] ["d1"] gridU1 [("A", "d1")] =
      Except.ok (setCell gridU1 "A" "d1" Cell.S) ∧
    colCountS (setCell gridU1 "A" "d1" Cell.S) "d1" ≤ 4 :=
  ⟨by decide, by decide, rfl,
   generate_colCount_le_four ["A"] ["d1"] gridU1 [("A", "d1")]
     (setCell gridU1 "A" "d1" Cell.S) "d1" (by decide) (by decide) rfl⟩

/-- Helper: characterization of the best-so-far fold from an arbitrary
slot, when some round strictly beats the running best score: the fold ends
at the earliest round attaining the maximum score. -/
theorem optimize_foldl_spec :
    ∀ (rounds : List (Grid × ℚ)) (b : Option Grid) (s : ℚ),
      (∃ r ∈ rounds, s < r.2) →
      ∃ (i : Nat) (hi : i < rounds.length),
        rounds.foldl optimize_step (b, s) =
          (some (rounds.get ⟨i, hi⟩).1, (rounds.get ⟨i, hi⟩).2) ∧
        (∀ r ∈ rounds, r.2 ≤ (rounds.get ⟨i, hi⟩).2) ∧
        s < (rounds.get ⟨i, hi⟩).2 ∧
        ∀ j (hj : j < i), (rounds.get ⟨j, Nat.lt_trans hj hi⟩).2 <
          (rounds.get ⟨i, hi⟩).2
  | [], _, _, h => absurd h (by simp)
  | r :: rest, b, s, h => by
    by_cases hr : s < r.2
    · have hstep : optimize_step (b, s) r = (some r.1, r.2) := by
        simp [optimize_step, hr]
      by_cases hrest : ∃ x ∈ rest, r.2 < x.2
      · obtain ⟨i, hi, heq, hmax, hs, hearlier⟩ :=
          optimize_foldl_spec rest (some r.1) r.2 hrest
        refine ⟨i + 1, Nat.succ_lt_succ hi, ?_, ?_, ?_, ?_⟩
        · rw [List.foldl_cons, hstep]
          simpa using heq
        · intro x hx
          rcases List.mem_cons.mp hx with rfl | hxm
          · simpa using le_of_lt hs
          · simpa using hmax x hxm
        · simpa using lt_trans hr hs
        · intro j hj
          cases j with
          | zero => simpa using hs
          | succ j0 => simpa using hearlier j0 (Nat.lt_of_succ_lt_succ hj)
      · push_neg at hrest
        refine ⟨0, Nat.succ_pos _, ?_, ?_, hr, ?_⟩
        · rw [List.foldl_cons, hstep]
          exact optimize_foldl_const (some r.1) r.2 rest hrest
        · intro x hx
          rcases List.mem_cons.mp hx with rfl | hxm
          · exact le_refl _
          · exact hrest x hxm
        · intro j hj
          exact absurd hj (Nat.not_lt_zero j)
    · have hstep : optimize_step (b, s) r = (b, s) := by
        simp [optimize_step, hr]
      have hrest : ∃ x ∈ rest, s < x.2 := by
        obtain ⟨x, hx, hsx⟩ := h
        rcases List.mem_cons.mp hx with rfl | hxm
        · exact absurd hsx hr
        · exact ⟨x, hxm, hsx⟩
      obtain ⟨i, hi, heq, hmax, hs, hearlier⟩ := optimize_foldl_spec rest b s hrest
      refine ⟨i + 1, Nat.succ_lt_succ hi, ?_, ?_, ?_, ?_⟩
      · rw [List.foldl_cons, hstep]
        simpa using heq
      · intro x hx
        rcases List.mem_cons.mp hx with rfl | hxm
        · simpa using le_of_lt (lt_of_le_of_lt (not_lt.mp hr) hs)
        · simpa using hmax x hxm
      · simpa using hs
      · intro j hj
        cases j with
        | zero => simpa using lt_of_le_of_lt (not_lt.mp hr) hs
        | succ j0 => simpa using hearlier j0 (Nat.lt_of_succ_lt_succ hj)

/-- Claim C9: among the rounds' candidates (one `(candidate, total score)`
pair per iteration), as soon as some round beats the `-1` sentinel, the
schedule `optimize_schedule` returns is the EARLIEST candidate attaining
the maximum total score: the best slot is replaced only on a strict
improvement, so later ties keep the earlier candidate.  (The retained best
being an independent copy is inherent to this pure embedding: the returned
pair holds the round's own grid value.) -/
theorem optimize_schedule_earliest_max (rounds : List (Grid × ℚ))
    (h : ∃ r ∈ rounds, -1 < r.2) :
    ∃ (i : Nat) (hi : i < rounds.length),
      (optimize_schedule rounds).1 = some (rounds.get ⟨i, hi⟩).1 ∧
      (optimize_schedule rounds).2 = (rounds.get ⟨i, hi⟩).2 ∧
      (∀ r ∈ rounds, r.2 ≤ (rounds.get ⟨i, hi⟩).2) ∧
      ∀ j (hj : j < i), (rounds.get ⟨j, Nat.lt_trans hj hi⟩).2 <
        (rounds.get ⟨i, hi⟩).2 := by
  obtain ⟨i, hi, heq, hmax, _, hearlier⟩ := optimize_foldl_spec rounds none (-1) h
  exact ⟨i, hi, by rw [optimize_schedule, heq], by rw [optimize_schedule, heq],
    hmax, hearlier⟩

/-- Claim C9, witness: three rounds with scores 1, 2, 2 — the second round
(the earliest maximum) wins, the tied third does not replace it. -/
theorem optimize_schedule_earliest_max_witness :
    (∃ r ∈ [(gridU1, (1 : ℚ)), (gridU8, 2), (gridU2, 2)], -1 < r.2) ∧
    ∃ (i : Nat) (hi : i < [(gridU1, (1 : ℚ)), (gridU8, 2), (gridU2, 2)].length),
      (optimize_schedule [(gridU1, (1 : ℚ)), (gridU8, 2), (gridU2, 2)]).1 =
        some ([(gridU1, (1 : ℚ)), (gridU8, 2), (gridU2, 2)].get ⟨i, hi⟩).1 ∧
      (optimize_schedule [(gridU1, (1 : ℚ)), (gridU8, 2), (gridU2, 2)]).2 =
        ([(gridU1, (1 : ℚ)), (gridU8, 2), (gridU2, 2)].get ⟨i, hi⟩).2 ∧
      (∀ r ∈ [(gridU1, (1 : ℚ)), (gridU8, 2), (gridU2, 2)],
        r.2 ≤ ([(gridU1, (1 : ℚ)), (gridU8, 2), (gridU2, 2)].get ⟨i, hi⟩).2) ∧
      ∀ j (hj : j < i),
        ([(gridU1, (1 : ℚ)), (gridU8, 2), (gridU2, 2)].get
          ⟨j, Nat.lt_trans hj hi⟩).2 <
        ([(gridU1, (1 : ℚ)), (gridU8, 2), (gridU2, 2)].get ⟨i, hi⟩).2 :=
  ⟨⟨(gridU1, (1 : ℚ)), by simp, by norm_num⟩,
   optimize_schedule_earliest_max [(gridU1, (1 : ℚ)), (gridU8, 2), (gridU2, 2)]
     ⟨(gridU1, (1 : ℚ)), by simp, by norm_num⟩⟩

/-- Helper: a transposition of names is involutive. -/
theorem swapNames_invol (a b p : String) : swapNames a b (swapNames a b p) = p := by
  unfold swapNames
  split_ifs <;> simp_all

/-- Helper: a transposition of names is injective. -/
theorem swapNames_inj (a b p q : String) (h : swapNames a b p = swapNames a b q) :
    p = q := by
  have := congrArg (swapNames a b) h
  rwa [swapNames_invol, swapNames_invol] at this

/-- Helper: the scheduled list of the swapped input is the swapped
scheduled list. -/
theorem scheduled_players_swap (a b : String) (g : Grid) (players : List String)
    (d : String) :
    scheduled_players (swapGrid a b g) (players.map (swapNames a b)) d =
      (scheduled_players g players d).map (swapNames a b) := by
  unfold scheduled_players swapGrid
  rw [List.filter_map]
  congr 1
  refine List.filter_congr ?_
  intro x _
  simp [Function.comp, swapNames_invol]

/-- Helper: index pairs commute with mapping. -/
theorem pairsOf_map {α β : Type} (f : α → β) : ∀ l : List α,
    pairsOf (l.map f) = (pairsOf l).map (fun pr => (f pr.1, f pr.2))
  | [] => rfl
  | x :: xs => by
    simp only [List.map_cons, pairsOf, pairsOf_map f xs, List.map_append,
      List.map_map]
    rfl

/-- Helper: the increment events of the swapped input are the swapped
increment events. -/
theorem pairIncrements_swap (a b : String) (g : Grid) (players : List String) :
    pairIncrements (swapGrid a b g) (players.map (swapNames a b)) =
      (pairIncrements g players).map
        (fun pr => (swapNames a b pr.1, swapNames a b pr.2)) := by
  unfold pairIncrements
  rw [show (swapGrid a b g).cols = g.cols from rfl, List.map_flatten, List.map_map]
  congr 1
  refine List.map_congr_left ?_
  intro d _
  simp only [Function.comp]
  rw [scheduled_players_swap, pairsOf_map]

/-- Helper: each pair's played-with counter is invariant under the swap. -/
theorem played_with_count_swap (a b : String) (g : Grid) (players : List String)
    (p q : String) :
    played_with_count (swapGrid a b g) (players.map (swapNames a b))
      (swapNames a b p) (swapNames a b q) = played_with_count g players p q := by
  unfold played_with_count
  rw [pairIncrements_swap, List.countP_map]
  refine List.countP_congr ?_
  intro pr _
  simp only [Function.comp]
  constructor
  all_goals
    intro hc
    rcases of_decide_eq_true hc with h1 | h1
  · exact decide_eq_true (Or.inl ⟨swapNames_inj a b _ _ h1.1, swapNames_inj a b _ _ h1.2⟩)
  · exact decide_eq_true (Or.inr ⟨swapNames_inj a b _ _ h1.1, swapNames_inj a b _ _ h1.2⟩)
  · exact decide_eq_true (Or.inl ⟨congrArg _ h1.1, congrArg _ h1.2⟩)
  · exact decide_eq_true (Or.inr ⟨congrArg _ h1.1, congrArg _ h1.2⟩)

/-- Helper: the accumulated round-robin sum is invariant under the swap. -/
theorem round_robin_sum_swap (a b : String) (g : Grid) (players : List String) :
    round_robin_sum (swapGrid a b g) (players.map (swapNames a b)) =
      round_robin_sum g players := by
  unfold round_robin_sum
  rw [List.map_map]
  refine congrArg List.sum (List.map_congr_left ?_)
  intro p _
  simp only [Function.comp, List.map_map]
  refine congrArg List.sum (List.map_congr_left ?_)
  intro q _
  simp only [Function.comp]
  by_cases hpq : p = q
  · simp [hpq]
  · rw [if_pos (fun hc => hpq (swapNames_inj a b p q hc)), if_pos hpq,
      played_with_count_swap]

/-- Claim C8: swapping two players throughout the input — their grid rows
and their positions in the players list — leaves the pairwise-coverage
score unchanged (including the raising behavior, since the number of
players is preserved). -/
theorem round_robbin_score_swap (a b : String) (g : Grid) (players : List String) :
    calculate_round_robbin_score (swapGrid a b g) (players.map (swapNames a b)) =
      calculate_round_robbin_score g players := by
  unfold calculate_round_robbin_score
  rw [show possible_pairs (players.map (swapNames a b)) = possible_pairs players by
    unfold possible_pairs; rw [List.length_map]]
  rw [round_robin_sum_swap]

end Golf
